import Mathlib

/-!
Shallow embedding of the resumable large-file upload manager
(src/uploadManager.js together with the status/complete handlers of
src/server.js), and proofs of the specification claims about it.

Conventions of the embedding:
* JS numbers appearing as sizes, offsets and indices are modelled as `Nat`
  (all uses in the source are nonnegative integers; theorems that depend on
  division assume a positive chunk size, since JS division by zero yields
  Infinity and is outside the model).
* The file system is modelled explicitly inside `ManagerState`:
  `metaFiles` is the snapshot store keyed by upload id (the JS code derives
  the metadata path injectively from the id), and `dataFiles` maps a
  destination path to the log of positional writes performed on it.
* Nondeterminism of the environment (I/O failures, stream errors) is made
  explicit through outcome parameters (`CreateOutcome`, `WriteOutcome`,
  unlink failure flags), matching the failure paths of the source.
-/

namespace UploadSpec

/-- JS `Math.ceil(a / b)` for natural `a` and positive natural `b`. -/
def jsCeilDiv (a b : Nat) : Nat := (a + b - 1) / b

/-- Embedding of the `BitSet` class (uploadManager.js lines 17-40):
`length` is the number of chunks and `bytes` the backing `Uint8Array` of
`ceil(length/8)` bytes. -/
structure BitSet where
  length : Nat
  bytes : List Nat
deriving DecidableEq

namespace BitSet

/-- Constructor `new BitSet(length)`: `ceil(length/8)` zero bytes. -/
def new (length : Nat) : BitSet :=
  ⟨length, List.replicate ((length + 7) / 8) 0⟩

/-- Method `_byteIndex(i)`: `(i / 8) | 0`. -/
def byteIndex (i : Nat) : Nat := i / 8

/-- Method `_bitMask(i)`: `1 << (i % 8)`. -/
def bitMask (i : Nat) : Nat := 1 <<< (i % 8)

/-- Method `set(i)`: `bytes[_byteIndex(i)] |= _bitMask(i)`, with the
Uint8Array semantics that a store at an out-of-range index is dropped
(here `List.set` past the end is the identity). There is no bound check in
the source. -/
def set (b : BitSet) (i : Nat) : BitSet :=
  { b with bytes := b.bytes.set (byteIndex i) (b.bytes.getD (byteIndex i) 0 ||| bitMask i) }

/-- Method `has(i)`: `(bytes[_byteIndex(i)] & _bitMask(i)) !== 0`, with the
Uint8Array semantics that an out-of-range read yields `undefined`, which
the bitwise `&` coerces to `0` (here `getD _ 0`). -/
def has (b : BitSet) (i : Nat) : Bool :=
  (b.bytes.getD (byteIndex i) 0 &&& bitMask i) != 0

/-- Method `toArray()`: the ascending list of indices `i < length` with
`has(i)`. -/
def toArray (b : BitSet) : List Nat :=
  (List.range b.length).filter (fun i => b.has i)

/-- Static method `fromArray(arr, length)`: start from a fresh bitset and
set every listed index. -/
def fromArray (arr : List Nat) (length : Nat) : BitSet :=
  arr.foldl (fun b i => b.set i) (new length)

theorem bitMask_eq (i : Nat) : bitMask i = 2 ^ (i % 8) := by
  simp [bitMask, Nat.shiftLeft_eq]

theorem has_eq_testBit (b : BitSet) (i : Nat) :
    b.has i = (b.bytes.getD (byteIndex i) 0).testBit (i % 8) := by
  rw [has, bitMask_eq, Nat.and_two_pow]
  cases h : (b.bytes.getD (byteIndex i) 0).testBit (i % 8) <;>
    simp [h, (Nat.two_pow_pos (i % 8)).ne.symm]

theorem bytes_length_set (b : BitSet) (i : Nat) :
    (b.set i).bytes.length = b.bytes.length := by
  simp [set]

theorem length_set (b : BitSet) (i : Nat) : (b.set i).length = b.length := rfl

theorem has_new (n i : Nat) : (new n).has i = false := by
  simp only [has, new, List.getD_eq_getElem?_getD, List.getElem?_replicate]
  split <;> simp

theorem has_set (b : BitSet) (i j : Nat) :
    (b.set i).has j =
      (b.has j || (decide (i = j) && decide (byteIndex i < b.bytes.length))) := by
  by_cases hlen : byteIndex i < b.bytes.length
  · have hbytes : (b.set i).bytes.getD (byteIndex j) 0
        = if byteIndex i = byteIndex j
          then b.bytes.getD (byteIndex i) 0 ||| bitMask i
          else b.bytes.getD (byteIndex j) 0 := by
      simp only [set, List.getD_eq_getElem?_getD, List.getElem?_set]
      by_cases hb : byteIndex i = byteIndex j
      · rw [if_pos hb, if_pos hlen, if_pos hb]
        rfl
      · rw [if_neg hb, if_neg hb]
    rw [has_eq_testBit, hbytes]
    by_cases hb : byteIndex i = byteIndex j
    · rw [if_pos hb, bitMask_eq, Nat.testBit_lor, has_eq_testBit, ← hb]
      by_cases hij : i = j
      · subst hij
        simp [Nat.testBit_two_pow_self, hlen]
      · have hmod : i % 8 ≠ j % 8 := by
          intro hm
          apply hij
          have hi := Nat.div_add_mod i 8
          have hjd := Nat.div_add_mod j 8
          simp only [byteIndex] at hb
          omega
        simp [Nat.testBit_two_pow_of_ne hmod, hij]
    · have hij : i ≠ j := fun h => hb (by rw [h])
      rw [if_neg hb, ← has_eq_testBit]
      simp [hij]
  · have hset : b.set i = b := by
      simp only [set]
      rw [List.set_eq_of_length_le (Nat.le_of_not_lt hlen)]
    simp [hset, hlen]

theorem has_foldl_set (l : List Nat) (b : BitSet) (j : Nat)
    (hj : byteIndex j < b.bytes.length) :
    (l.foldl (fun b i => b.set i) b).has j = (b.has j || decide (j ∈ l)) := by
  induction l generalizing b with
  | nil => simp
  | cons i l ih =>
    have hj' : byteIndex j < (b.set i).bytes.length := by
      rw [bytes_length_set]; exact hj
    simp only [List.foldl_cons, ih (b.set i) hj', has_set]
    by_cases hij : i = j
    · subst hij
      simp [hj]
    · simp [hij, Ne.symm hij]

theorem byteIndex_lt_of_lt (j n : Nat) (h : j < n) : byteIndex j < (n + 7) / 8 := by
  have h1 : byteIndex j + 1 = (j + 8) / 8 := by
    simp [byteIndex, Nat.add_div_right]
  have h2 : (j + 8) / 8 ≤ (n + 7) / 8 := Nat.div_le_div_right (by omega)
  omega

theorem bytes_length_new (n : Nat) : (new n).bytes.length = (n + 7) / 8 := by
  simp [new]

theorem has_fromArray (l : List Nat) (n j : Nat) (hj : j < n) :
    (fromArray l n).has j = decide (j ∈ l) := by
  rw [fromArray, has_foldl_set l (new n) j (by rw [bytes_length_new]; exact byteIndex_lt_of_lt j n hj)]
  simp [has_new]

theorem mem_toArray (b : BitSet) (j : Nat) :
    j ∈ b.toArray ↔ j < b.length ∧ b.has j := by
  simp [toArray, List.mem_filter]

theorem length_fromArray (l : List Nat) (n : Nat) : (fromArray l n).length = n := by
  have : ∀ (l : List Nat) (b : BitSet), (l.foldl (fun b i => b.set i) b).length = b.length := by
    intro l
    induction l with
    | nil => intro b; rfl
    | cons i l ih => intro b; simp [List.foldl_cons, ih, length_set]
  simp [fromArray, this, new]

theorem toArray_fromArray (l : List Nat) (n : Nat) :
    (fromArray l n).toArray = (List.range n).filter (fun j => decide (j ∈ l)) := by
  rw [toArray, length_fromArray]
  apply List.filter_congr
  intro j hj
  exact has_fromArray l n j (List.mem_range.mp hj)

/-- Round trip: reconstructing a bitset from a persisted `toArray` list and
serializing it again reproduces the list. -/
theorem toArray_fromArray_toArray (b : BitSet) (n : Nat) (hlen : b.length = n) :
    (fromArray b.toArray n).toArray = b.toArray := by
  rw [toArray_fromArray]
  have hcong : ∀ j ∈ List.range n, decide (j ∈ b.toArray) = b.has j := by
    intro j hj
    have hjn : j < n := List.mem_range.mp hj
    by_cases h : b.has j
    · simp [mem_toArray, h, hlen ▸ hjn]
    · simp [mem_toArray, h]
  rw [List.filter_congr hcong, toArray, hlen]

end BitSet

/-- Descriptor of one upload as held in the in-memory registry
(the object built in `createUpload` / reconstructed in `getUpload`). -/
structure Upload where
  id : String
  filename : String
  totalSize : Nat
  chunkSize : Nat
  createdAt : Nat
  filePath : String
  completed : Bool
  receivedBitset : BitSet
deriving DecidableEq

/-- Persisted snapshot record, the JSON object written by `_flushDirty` and
`createUpload` and read back by `getUpload`. -/
structure Meta where
  id : String
  filename : String
  totalSize : Nat
  chunkSize : Nat
  createdAt : Nat
  receivedChunks : List Nat
  filePath : String
  completed : Bool
deriving DecidableEq

/-- Association-list lookup, the model of `Map.get` keyed by upload id or
file path. -/
def alget {α : Type} : List (String × α) → String → Option α
  | [], _ => none
  | (k, v) :: rest, key => if k = key then some v else alget rest key

/-- Association-list insertion/replacement, the model of `Map.set`. -/
def alset {α : Type} (m : List (String × α)) (k : String) (v : α) : List (String × α) :=
  (k, v) :: m

/-- Association-list removal, the model of `Map.delete`. -/
def aldel {α : Type} (m : List (String × α)) (k : String) : List (String × α) :=
  m.filter (fun p => p.1 != k)

/-- State of an `UploadManager` instance together with the part of the file
system it touches.  `uploads`, `locks`, `dirty` and the debounce timer are
the constructor fields; `metaFiles` models the snapshot store keyed by id
(the JSON file at `_metaPath(id)`), and `dataFiles` maps a destination path
to the log of positional writes `(offset, bytesWritten)` performed on it. -/
structure ManagerState where
  uploads : List (String × Upload)
  locks : List (String × List Nat)
  dirty : List String
  timerArmed : Bool
  metaFiles : List (String × Meta)
  dataFiles : List (String × List (Nat × Nat))
deriving DecidableEq

/-- The state of a freshly constructed manager over an empty base dir. -/
def emptyState : ManagerState :=
  { uploads := [], locks := [], dirty := [], timerArmed := false,
    metaFiles := [], dataFiles := [] }

/-- Method `_scheduleFlush(id)`: add the id to the dirty set and arm the
debounce timer if it is not armed. -/
def scheduleFlush (st : ManagerState) (id : String) : ManagerState :=
  let st1 := { st with dirty := if st.dirty.contains id then st.dirty else id :: st.dirty }
  if st1.timerArmed then st1 else { st1 with timerArmed := true }

/-- The snapshot record `_flushDirty` serializes for one upload. -/
def metaOf (up : Upload) : Meta :=
  { id := up.id, filename := up.filename, totalSize := up.totalSize,
    chunkSize := up.chunkSize, createdAt := up.createdAt,
    receivedChunks := up.receivedBitset.toArray,
    filePath := up.filePath, completed := up.completed }

/-- Method `_flushDirty()`: snapshot every dirty id that has an in-memory
descriptor, clear the dirty set and the timer.  A failed write for one id
is logged and skipped in the source; the model takes the write as
effective, which no claim depends on. -/
def flushDirty (st : ManagerState) : ManagerState :=
  let ids := st.dirty
  let st1 := { st with dirty := [], timerArmed := false }
  ids.foldl (fun s id =>
    match alget s.uploads id with
    | none => s
    | some up => { s with metaFiles := alset s.metaFiles id (metaOf up) }) st1

/-- Method `flushAllMetadata()`: cancel the timer and flush synchronously.
Cancelling and clearing the timer are both folded into `flushDirty`. -/
def flushAllMetadata (st : ManagerState) : ManagerState :=
  flushDirty st

/-- Environment outcome of the two I/O stages of `createUpload`: the
synchronous initial snapshot write, then the destination-file
open/truncate. -/
inductive CreateOutcome
  | ok
  | metaWriteFails
  | allocateFails
deriving DecidableEq

/-- The descriptor object built by `createUpload`:
`totalChunks = Math.max(1, Math.ceil(totalSize / chunkSize))` and a fresh
bitset of that length. -/
def createdUpload (filename : String) (totalSize chunkSize : Nat) (id : String)
    (now : Nat) : Upload :=
  { id := id, filename := filename, totalSize := totalSize, chunkSize := chunkSize,
    createdAt := now, filePath := filename ++ "." ++ id, completed := false,
    receivedBitset := BitSet.new (max 1 (jsCeilDiv totalSize chunkSize)) }

/-- The initial snapshot record written synchronously by `createUpload`. -/
def createdMeta (filename : String) (totalSize chunkSize : Nat) (id : String)
    (now : Nat) : Meta :=
  { id := id, filename := filename, totalSize := totalSize, chunkSize := chunkSize,
    createdAt := now, receivedChunks := [], filePath := filename ++ "." ++ id,
    completed := false }

/-- Method `createUpload({filename, totalSize, chunkSize})`.  The generated
uuid and `Date.now()` are inputs; `path.basename` sanitization is not
modelled (filenames are opaque).  The source writes the initial snapshot
first, then allocates the destination file, and only then registers the
upload in memory, so a failed allocation leaves the snapshot on disk. -/
def createUpload (st : ManagerState) (filename : String) (totalSize chunkSize : Nat)
    (id : String) (now : Nat) (oc : CreateOutcome) : Except String String × ManagerState :=
  match oc with
  | .metaWriteFails => (.error "io_error", st)
  | .allocateFails =>
    (.error "io_error",
      { st with metaFiles := alset st.metaFiles id (createdMeta filename totalSize chunkSize id now) })
  | .ok =>
    let st1 := { st with
        metaFiles := alset st.metaFiles id (createdMeta filename totalSize chunkSize id now),
        dataFiles := alset st.dataFiles (filename ++ "." ++ id) [],
        uploads := alset st.uploads id (createdUpload filename totalSize chunkSize id now),
        locks := alset st.locks id [] }
    (.ok id, scheduleFlush st1 id)

/-- The descriptor `getUpload` reconstructs from a snapshot record:
`totalChunks` is recomputed as `Math.max(1, Math.ceil(totalSize / chunkSize))`
and the bitmap rebuilt with `BitSet.fromArray`. -/
def loadedUpload (m : Meta) : Upload :=
  { id := m.id, filename := m.filename, totalSize := m.totalSize,
    chunkSize := m.chunkSize, createdAt := m.createdAt, filePath := m.filePath,
    completed := m.completed,
    receivedBitset := BitSet.fromArray m.receivedChunks
      (max 1 (jsCeilDiv m.totalSize m.chunkSize)) }

/-- Method `getUpload(id)`: cached descriptor if present, else reconstruct
from the snapshot store (caching the result and ensuring a lock set), else
null. -/
def getUpload (st : ManagerState) (id : String) : Option Upload × ManagerState :=
  match alget st.uploads id with
  | some up => (some up, st)
  | none =>
    match alget st.metaFiles id with
    | none => (none, st)
    | some m =>
      let st1 := { st with
          uploads := alset st.uploads id (loadedUpload m),
          locks := if (alget st.locks id).isSome then st.locks else alset st.locks id [] }
      (some (loadedUpload m), st1)

/-- Method `getReceivedChunksArray(id)`: `[]` for an unknown id, else the
bitset serialized to indices. -/
def getReceivedChunksArray (st : ManagerState) (id : String) : List Nat × ManagerState :=
  match getUpload st id with
  | (none, st1) => ([], st1)
  | (some up, st1) => (up.receivedBitset.toArray, st1)

/-- Environment outcome of the positional write performed inside
`writeChunkAt`: either the pipe finishes having counted `written` bytes
from the request stream, or some stream emits an error with the given
code. -/
inductive WriteOutcome
  | success (written : Nat)
  | streamError (code : String)
deriving DecidableEq

/-- Result of `writeChunkAt` as observed by the caller: the resolved value
`{alreadyReceived, written}` or the thrown error. -/
inductive WriteResult
  | ok (alreadyReceived : Bool) (written : Nat)
  | notFound
  | conflict
  | transientFailure
  | fatalFailure (code : String)
deriving DecidableEq

/-- The error codes `writeChunkAt` classifies as transient:
`EBADF` or `ERR_STREAM_PREMATURE_CLOSE`. -/
def isTransientCode (code : String) : Bool :=
  code == "EBADF" || code == "ERR_STREAM_PREMATURE_CLOSE"

/-- Removal of a chunk index from an upload's lock set
(`lockSet.delete(chunkIndex)`). -/
def lockRelease (st : ManagerState) (id : String) (chunkIndex : Nat) : ManagerState :=
  let remaining := ((alget st.locks id).getD []).filter (fun j => j != chunkIndex)
  { st with locks := alset st.locks id remaining }

/-- Method `writeChunkAt(id, offset, readStream, expectedLength)`:
resolve the upload (`upload_not_found` if absent), compute
`chunkIndex = floor(offset / chunkSize)`, short-circuit when the bitmap
already has the index, reject with 409 when the index is in the lock set,
otherwise lock the index and perform the positional write.  On finish the
bitmap bit is set, a flush is scheduled and the lock released; on a stream
error the lock is released (the `finally` block) and the error is
classified transient for `EBADF`/`ERR_STREAM_PREMATURE_CLOSE`, else
rethrown. -/
def writeChunkAt (st : ManagerState) (id : String) (offset : Nat) (oc : WriteOutcome) :
    WriteResult × ManagerState :=
  match getUpload st id with
  | (none, st1) => (.notFound, st1)
  | (some up, st1) =>
    let chunkIndex := offset / up.chunkSize
    if up.receivedBitset.has chunkIndex then
      (.ok true 0, st1)
    else
      let lockSet := (alget st1.locks id).getD []
      if lockSet.contains chunkIndex then
        (.conflict, st1)
      else
        let st2 := { st1 with locks := alset st1.locks id (chunkIndex :: lockSet) }
        match oc with
        | .success written =>
          let up2 := { up with receivedBitset := up.receivedBitset.set chunkIndex }
          let writeLog := (offset, written) :: (alget st2.dataFiles up.filePath).getD []
          let st3 := { st2 with
              uploads := alset st2.uploads id up2,
              dataFiles := alset st2.dataFiles up.filePath writeLog }
          (.ok false written, lockRelease (scheduleFlush st3 id) id chunkIndex)
        | .streamError code =>
          let st3 := lockRelease st2 id chunkIndex
          if isTransientCode code then (.transientFailure, st3)
          else (.fatalFailure code, st3)

/-- Method `getMissingChunks(id)`: `[]` for an unknown id, else the indices
below `Math.ceil(totalSize / chunkSize)` (no `max 1` here, unlike
`createUpload`) whose bit is unset. -/
def getMissingChunks (st : ManagerState) (id : String) : List Nat × ManagerState :=
  match getUpload st id with
  | (none, st1) => ([], st1)
  | (some up, st1) =>
    let totalChunks := jsCeilDiv up.totalSize up.chunkSize
    ((List.range totalChunks).filter (fun i => !up.receivedBitset.has i), st1)

/-- Method `markCompleted(id)`: throw `upload_not_found` if absent, else
set the completed flag and schedule a flush. -/
def markCompleted (st : ManagerState) (id : String) : Except String Unit × ManagerState :=
  match getUpload st id with
  | (none, st1) => (.error "upload_not_found", st1)
  | (some up, st1) =>
    let st2 := { st1 with uploads := alset st1.uploads id { up with completed := true } }
    (.ok (), scheduleFlush st2 id)

/-- Method `abortUpload(id)`: resolve the upload (return silently if
absent), best-effort unlink of the destination file and of the snapshot
(each wrapped in its own try/catch whose failure is modelled by a flag),
then unconditionally drop the id from the registry, the lock map and the
dirty set.  No error ever escapes. -/
def abortUpload (st : ManagerState) (id : String)
    (unlinkFileFails unlinkMetaFails : Bool) : ManagerState :=
  match getUpload st id with
  | (none, st1) => st1
  | (some up, st1) =>
    let st2 := if unlinkFileFails then st1
               else { st1 with dataFiles := aldel st1.dataFiles up.filePath }
    let st3 := if unlinkMetaFails then st2
               else { st2 with metaFiles := aldel st2.metaFiles id }
    { st3 with uploads := aldel st3.uploads id,
               locks := aldel st3.locks id,
               dirty := st3.dirty.filter (fun j => j != id) }

/-- Response of the `GET /upload/:id/status` handler (server.js lines
117-136). -/
inductive StatusResult
  | notFound
  | ok (totalSize chunkSize totalChunks : Nat) (receivedChunks : List Nat)
      (receivedCount : Nat)
deriving DecidableEq

/-- The status handler: 404 for an unknown id, else
`totalChunks = Math.ceil(totalSize / chunkSize)` and the received array. -/
def statusHandler (st : ManagerState) (id : String) : StatusResult × ManagerState :=
  match getUpload st id with
  | (none, st1) => (.notFound, st1)
  | (some up, st1) =>
    let totalChunks := jsCeilDiv up.totalSize up.chunkSize
    match getReceivedChunksArray st1 id with
    | (received, st2) =>
      (.ok up.totalSize up.chunkSize totalChunks received received.length, st2)

/-- Response of the `POST /upload/:id/complete` handler (server.js lines
139-159). -/
inductive CompleteResult
  | notFound
  | missingChunks (missing : List Nat)
  | ok
deriving DecidableEq

/-- The complete handler: 404 for an unknown id; 400 carrying the missing
indices when any chunk is missing; else `markCompleted` and 200. -/
def completeHandler (st : ManagerState) (id : String) : CompleteResult × ManagerState :=
  match getUpload st id with
  | (none, st1) => (.notFound, st1)
  | (some _, st1) =>
    match getMissingChunks st1 id with
    | (missing, st2) =>
      if missing.isEmpty then (.ok, (markCompleted st2 id).2)
      else (.missingChunks missing, st2)

/-- One externally triggered operation of the manager other than abort,
used to state monotonicity of the received set. -/
inductive Op
  | create (filename : String) (totalSize chunkSize : Nat) (id : String) (now : Nat)
      (oc : CreateOutcome)
  | write (id : String) (offset : Nat) (oc : WriteOutcome)
  | status (id : String)
  | missing (id : String)
  | received (id : String)
  | complete (id : String)
  | load (id : String)
  | flush
deriving DecidableEq

/-- State reached after running one operation. -/
def applyOp (st : ManagerState) : Op → ManagerState
  | .create f t c id now oc => (createUpload st f t c id now oc).2
  | .write id offset oc => (writeChunkAt st id offset oc).2
  | .status id => (statusHandler st id).2
  | .missing id => (getMissingChunks st id).2
  | .received id => (getReceivedChunksArray st id).2
  | .complete id => (completeHandler st id).2
  | .load id => (getUpload st id).2
  | .flush => flushDirty st

/-- Freshness of the uuid chosen by a create operation: it collides with no
registered upload and no persisted snapshot. -/
def opFresh (st : ManagerState) : Op → Prop
  | .create _ _ _ id _ _ => alget st.uploads id = none ∧ alget st.metaFiles id = none
  | _ => True

theorem alget_alset_self {α : Type} (m : List (String × α)) (k : String) (v : α) :
    alget (alset m k v) k = some v := by
  simp [alget, alset]

theorem alget_alset_ne {α : Type} (m : List (String × α)) (k k' : String) (v : α)
    (h : k ≠ k') : alget (alset m k v) k' = alget m k' := by
  simp [alget, alset, h]

theorem alget_aldel {α : Type} (m : List (String × α)) (k k' : String) :
    alget (aldel m k) k' = if k = k' then none else alget m k' := by
  induction m with
  | nil => simp [alget, aldel]
  | cons p rest ih =>
    obtain ⟨a, v⟩ := p
    rw [aldel, List.filter_cons]
    by_cases hak : a = k
    · subst hak
      simp only [bne_self_eq_false, Bool.false_eq_true, if_false]
      rw [show List.filter (fun p => p.1 != a) rest = aldel rest a from rfl, ih]
      by_cases hkk : a = k'
      · simp [hkk]
      · simp [alget, hkk]
    · have hcond : (((a, v).1 != k) = true) := by simpa using hak
      rw [hcond]
      simp only [if_true]
      by_cases hak' : a = k'
      · subst hak'
        have hka : k ≠ a := Ne.symm hak
        simp [alget, hka]
      · simp only [alget, if_neg hak']
        rw [show List.filter (fun p => p.1 != k) rest = aldel rest k from rfl, ih]

theorem aldel_self_none {α : Type} (m : List (String × α)) (k : String) :
    alget (aldel m k) k = none := by
  simp [alget_aldel]

theorem scheduleFlush_uploads (st : ManagerState) (id : String) :
    (scheduleFlush st id).uploads = st.uploads := by
  unfold scheduleFlush
  by_cases h : st.timerArmed <;> simp [h]

theorem scheduleFlush_locks (st : ManagerState) (id : String) :
    (scheduleFlush st id).locks = st.locks := by
  unfold scheduleFlush
  by_cases h : st.timerArmed <;> simp [h]

theorem scheduleFlush_metaFiles (st : ManagerState) (id : String) :
    (scheduleFlush st id).metaFiles = st.metaFiles := by
  unfold scheduleFlush
  by_cases h : st.timerArmed <;> simp [h]

theorem scheduleFlush_dataFiles (st : ManagerState) (id : String) :
    (scheduleFlush st id).dataFiles = st.dataFiles := by
  unfold scheduleFlush
  by_cases h : st.timerArmed <;> simp [h]

theorem scheduleFlush_timerArmed (st : ManagerState) (id : String) :
    (scheduleFlush st id).timerArmed = true := by
  unfold scheduleFlush
  by_cases h : st.timerArmed <;> simp [h]

theorem mem_scheduleFlush_dirty (st : ManagerState) (id : String) :
    id ∈ (scheduleFlush st id).dirty := by
  unfold scheduleFlush
  have hmem : id ∈ (if st.dirty.contains id then st.dirty else id :: st.dirty) := by
    by_cases h : st.dirty.contains id
    · rw [if_pos h]
      exact List.mem_of_elem_eq_true h
    · rw [if_neg h]
      exact List.mem_cons_self id _
  by_cases h : st.timerArmed <;> simp only [h] <;> simpa using hmem

theorem lockRelease_uploads (st : ManagerState) (id : String) (ci : Nat) :
    (lockRelease st id ci).uploads = st.uploads := rfl

theorem lockRelease_metaFiles (st : ManagerState) (id : String) (ci : Nat) :
    (lockRelease st id ci).metaFiles = st.metaFiles := rfl

theorem lockRelease_dataFiles (st : ManagerState) (id : String) (ci : Nat) :
    (lockRelease st id ci).dataFiles = st.dataFiles := rfl

theorem lockRelease_dirty (st : ManagerState) (id : String) (ci : Nat) :
    (lockRelease st id ci).dirty = st.dirty := rfl

theorem contains_filter_ne (l : List Nat) (ci : Nat) :
    (l.filter (fun j => j != ci)).contains ci = false := by
  have hnot : ci ∉ l.filter (fun j => j != ci) := by
    intro hmem
    have h2 := List.of_mem_filter hmem
    simp at h2
  cases hc : (l.filter (fun j => j != ci)).contains ci
  · rfl
  · exact absurd (List.mem_of_elem_eq_true hc) hnot

theorem lockRelease_not_contains (st : ManagerState) (id : String) (ci : Nat) :
    ((alget (lockRelease st id ci).locks id).getD []).contains ci = false := by
  unfold lockRelease
  dsimp only
  rw [alget_alset_self]
  simp [contains_filter_ne]

theorem getUpload_of_cached (st : ManagerState) (id : String) (up : Upload)
    (h : alget st.uploads id = some up) : getUpload st id = (some up, st) := by
  simp [getUpload, h]

theorem getUpload_caches (st : ManagerState) (id : String) (up : Upload)
    (h : (getUpload st id).1 = some up) :
    alget (getUpload st id).2.uploads id = some up := by
  unfold getUpload at h ⊢
  cases hc : alget st.uploads id with
  | some u => simp_all
  | none =>
    cases hm : alget st.metaFiles id with
    | none => simp_all
    | some m =>
      simp only [hc, hm] at h ⊢
      rw [alget_alset_self]
      simpa using h

theorem alget_getUpload_uploads (st : ManagerState) (id id' : String) (u : Upload)
    (h : alget st.uploads id' = some u) :
    alget (getUpload st id).2.uploads id' = some u := by
  unfold getUpload
  cases hc : alget st.uploads id with
  | some up => simpa using h
  | none =>
    cases hm : alget st.metaFiles id with
    | none => simpa using h
    | some m =>
      dsimp only
      have hne : id ≠ id' := by
        intro he
        rw [he] at hc
        rw [hc] at h
        exact Option.noConfusion h
      rw [alget_alset_ne _ _ _ _ hne]
      exact h

theorem foldl_flush_uploads (ids : List String) (s : ManagerState) :
    (ids.foldl (fun s id =>
      match alget s.uploads id with
      | none => s
      | some up => { s with metaFiles := alset s.metaFiles id (metaOf up) }) s).uploads
    = s.uploads := by
  induction ids generalizing s with
  | nil => rfl
  | cons a rest ih =>
    simp only [List.foldl_cons]
    cases hA : alget s.uploads a with
    | none =>
      simp only [hA]
      exact ih s
    | some up =>
      simp only [hA]
      exact ih _

theorem flushDirty_uploads (st : ManagerState) : (flushDirty st).uploads = st.uploads :=
  foldl_flush_uploads st.dirty { st with dirty := [], timerArmed := false }

theorem getUpload_idem (st : ManagerState) (id : String) (up : Upload)
    (h : (getUpload st id).1 = some up) :
    getUpload (getUpload st id).2 id = (some up, (getUpload st id).2) :=
  getUpload_of_cached _ id up (getUpload_caches st id up h)

/-- Sample bitset for witnesses: three chunks, chunk 2 received. -/
def sampleBitSet : BitSet := (BitSet.new 3).set 2

/-- Sample cached upload used by witnesses: the spec's numeric example
`totalSize=150, chunkSize=64`. -/
def sampleUpload : Upload :=
  { id := "u1", filename := "f.bin", totalSize := 150, chunkSize := 64,
    createdAt := 0, filePath := "f.bin.u1", completed := false,
    receivedBitset := sampleBitSet }

/-- Sample manager state with `sampleUpload` registered in memory. -/
def sampleState : ManagerState :=
  { uploads := [("u1", sampleUpload)], locks := [("u1", [])], dirty := [],
    timerArmed := false, metaFiles := [("u1", metaOf sampleUpload)],
    dataFiles := [("f.bin.u1", [])] }

/-- C1: for an upload registered in memory and a chunk index already in its
bitmap, `writeChunkAt` at any offset of that chunk returns
`alreadyReceived=true, written=0` and the whole manager state — bitmap,
destination file, locks, dirty set — is left unchanged, whatever the
environment would have done to the write. -/
theorem C1_writeChunk_idempotent (st : ManagerState) (id : String) (offset : Nat)
    (oc : WriteOutcome) (up : Upload)
    (hcached : alget st.uploads id = some up)
    (hrecv : up.receivedBitset.has (offset / up.chunkSize) = true) :
    writeChunkAt st id offset oc = (.ok true 0, st) := by
  rw [writeChunkAt, getUpload_of_cached st id up hcached]
  simp [hrecv]

/-- Witness for C1 at the sample state: chunk 2 (offset 128) is already
received, so a re-delivery is a no-op. -/
theorem C1_witness :
    writeChunkAt sampleState "u1" 128 (.success 22) = (.ok true 0, sampleState) :=
  C1_writeChunk_idempotent sampleState "u1" 128 (.success 22) sampleUpload rfl (by decide)

/-- C9: an id that is neither cached nor present in the snapshot store
makes `getMissingChunks` and `getReceivedChunksArray` return the empty
list (with the state untouched) instead of failing. -/
theorem C9_unknown_id_empty_lists (st : ManagerState) (id : String)
    (hu : alget st.uploads id = none) (hm : alget st.metaFiles id = none) :
    getMissingChunks st id = ([], st) ∧ getReceivedChunksArray st id = ([], st) := by
  have hg : getUpload st id = (none, st) := by
    rw [getUpload, hu, hm]
  rw [getMissingChunks, getReceivedChunksArray, hg]
  exact ⟨rfl, rfl⟩

/-- Witness for C9 on the empty manager. -/
theorem C9_witness :
    getMissingChunks emptyState "nope" = ([], emptyState) ∧
      getReceivedChunksArray emptyState "nope" = ([], emptyState) :=
  C9_unknown_id_empty_lists emptyState "nope" rfl rfl

theorem getUpload_none_state (st : ManagerState) (id : String)
    (h : (getUpload st id).1 = none) : getUpload st id = (none, st) := by
  unfold getUpload at h ⊢
  cases hc : alget st.uploads id with
  | some u => simp_all
  | none =>
    cases hm : alget st.metaFiles id with
    | none => rfl
    | some m => simp_all

theorem not_mem_filter_ne (l : List String) (id : String) :
    id ∉ l.filter (fun j => j != id) := by
  intro hmem
  have h2 := List.of_mem_filter hmem
  simp at h2

/-- C3: a `writeChunkAt` call on a chunk index that is not currently held
in the PendingWriteSet leaves that index out of the PendingWriteSet on
every exit path — already-received short-circuit, successful write,
transient stream failure and non-transient failure alike. -/
theorem C3_pending_write_cleared (st : ManagerState) (id : String) (offset : Nat)
    (oc : WriteOutcome) (up : Upload)
    (hup : (getUpload st id).1 = some up)
    (hnotlocked : ((alget (getUpload st id).2.locks id).getD []).contains
        (offset / up.chunkSize) = false) :
    ((alget (writeChunkAt st id offset oc).2.locks id).getD []).contains
        (offset / up.chunkSize) = false := by
  rcases hg : getUpload st id with ⟨o, st1⟩
  rw [hg] at hup hnotlocked
  dsimp only at hup hnotlocked
  subst hup
  rw [writeChunkAt, hg]
  dsimp only
  by_cases hrecv : up.receivedBitset.has (offset / up.chunkSize) = true
  · rw [if_pos hrecv]
    exact hnotlocked
  · have hcond : ¬(((alget st1.locks id).getD []).contains (offset / up.chunkSize) = true) := by
      rw [hnotlocked]
      exact Bool.false_ne_true
    rw [if_neg hrecv, if_neg hcond]
    cases oc with
    | success written =>
      exact lockRelease_not_contains _ id _
    | streamError code =>
      dsimp only
      by_cases ht : isTransientCode code = true
      · rw [if_pos ht]
        exact lockRelease_not_contains _ id _
      · rw [if_neg ht]
        exact lockRelease_not_contains _ id _

/-- Witness for C3: a successful first-time write of chunk 0 at the sample
state leaves chunk 0 unlocked. -/
theorem C3_witness :
    ((alget (writeChunkAt sampleState "u1" 0 (.success 64)).2.locks "u1").getD []).contains
        (0 / sampleUpload.chunkSize) = false :=
  C3_pending_write_cleared sampleState "u1" 0 (.success 64) sampleUpload rfl (by decide)

/-- C7 is refuted as stated: `set` and `has` perform no bound check, and an
out-of-range `set(5)` on a bitmap of length 3 flips a bit that `has(5)`
then reports as received. -/
theorem C7_counterexample :
    3 ≤ 5 ∧ (BitSet.new 3).has 5 = false ∧ ((BitSet.new 3).set 5).has 5 = true := by
  decide

/-- C7 amended: there is no explicit bound check; an out-of-range `set(i)`
(`length ≤ i`) never alters any in-range observation — `has(j)` for
`j < length` and `toArray` are unchanged — and on a fresh bitmap `has`
reports false everywhere; only `has(i)` itself, outside the valid range,
may report a spurious bit. -/
theorem C7_out_of_range_set_harmless (b : BitSet) (i : Nat) (hi : b.length ≤ i) :
    (∀ j, j < b.length → (b.set i).has j = b.has j) ∧
    (b.set i).toArray = b.toArray ∧
    (∀ k, (BitSet.new b.length).has k = false) := by
  have hj : ∀ j, j < b.length → (b.set i).has j = b.has j := by
    intro j hjlen
    rw [BitSet.has_set]
    have hij : i ≠ j := by omega
    simp [hij]
  refine ⟨hj, ?_, fun k => BitSet.has_new _ k⟩
  rw [BitSet.toArray, BitSet.toArray, BitSet.length_set]
  exact List.filter_congr (fun j hjm => hj j (List.mem_range.mp hjm))

/-- Witness for C7 amended: the out-of-range `set(5)` on the length-3
sample bitmap leaves its serialized indices unchanged. -/
theorem C7_witness :
    3 ≤ 5 ∧ (sampleBitSet.set 5).toArray = sampleBitSet.toArray :=
  ⟨by decide, (C7_out_of_range_set_harmless sampleBitSet 5 (by decide)).2.1⟩

theorem toArray_new (n : Nat) : (BitSet.new n).toArray = [] := by
  simp [BitSet.toArray, BitSet.has_new]

theorem createUpload_ok_state (st : ManagerState) (f : String) (t c : Nat)
    (id : String) (now : Nat) :
    (createUpload st f t c id now .ok).2 = scheduleFlush { st with
        metaFiles := alset st.metaFiles id (createdMeta f t c id now),
        dataFiles := alset st.dataFiles (f ++ "." ++ id) [],
        uploads := alset st.uploads id (createdUpload f t c id now),
        locks := alset st.locks id [] } id := rfl

theorem createUpload_ok_cached (st : ManagerState) (f : String) (t c : Nat)
    (id : String) (now : Nat) :
    alget (createUpload st f t c id now .ok).2.uploads id
      = some (createdUpload f t c id now) := by
  rw [createUpload_ok_state, scheduleFlush_uploads]
  exact alget_alset_self _ _ _

theorem max_one_jsCeilDiv (t c : Nat) (ht : 1 ≤ t) (hc : 1 ≤ c) :
    max 1 (jsCeilDiv t c) = jsCeilDiv t c := by
  have h1 : 1 ≤ jsCeilDiv t c := by
    rw [jsCeilDiv, Nat.one_le_div_iff (by omega)]
    omega
  omega

/-- C4 is refuted as stated: for `totalSize = 0` the descriptor built by
`createUpload` has `totalChunks = max(1, ceil(0/64)) = 1`, not
`ceil(0/64) = 0`, so the bitmap length disagrees with the plain ceiling
that `getMissingChunks` and the status handler use. -/
theorem C4_counterexample :
    jsCeilDiv 0 64 = 0 ∧
    (alget (createUpload emptyState "f.bin" 0 64 "u0" 7 .ok).2.uploads "u0").map
        (fun up => up.receivedBitset.length) = some 1 := by
  constructor
  · rfl
  · rw [createUpload_ok_cached]
    rfl

/-- C4 amended: both `createUpload` and the snapshot reconstruction in
`getUpload` compute `totalChunks = max(1, ceil(totalSize/chunkSize))`,
which for every `totalSize ≥ 1` (and positive chunk size) equals
`ceil(totalSize/chunkSize)`; in that range the created bitmap length, the
status handler, the missing-chunk computation, and the bitmap length of
every descriptor reconstructed from a snapshot all agree on this value. -/
theorem C4_totalChunks_agree (st : ManagerState) (filename : String)
    (totalSize chunkSize : Nat) (id : String) (now : Nat)
    (ht : 1 ≤ totalSize) (hc : 1 ≤ chunkSize) :
    ∃ up, alget (createUpload st filename totalSize chunkSize id now .ok).2.uploads id = some up ∧
      up.receivedBitset.length = jsCeilDiv totalSize chunkSize ∧
      up.totalSize = totalSize ∧ up.chunkSize = chunkSize ∧
      (statusHandler (createUpload st filename totalSize chunkSize id now .ok).2 id).1
        = .ok totalSize chunkSize (jsCeilDiv totalSize chunkSize) [] 0 ∧
      (getMissingChunks (createUpload st filename totalSize chunkSize id now .ok).2 id).1
        = List.range (jsCeilDiv totalSize chunkSize) ∧
      (∀ m : Meta, 1 ≤ m.totalSize → 1 ≤ m.chunkSize →
        (loadedUpload m).receivedBitset.length = jsCeilDiv m.totalSize m.chunkSize ∧
        (loadedUpload m).totalSize = m.totalSize ∧
        (loadedUpload m).chunkSize = m.chunkSize) := by
  have hcache := createUpload_ok_cached st filename totalSize chunkSize id now
  have hg := getUpload_of_cached _ id _ hcache
  refine ⟨createdUpload filename totalSize chunkSize id now, hcache, ?_, rfl, rfl, ?_, ?_, ?_⟩
  · show max 1 (jsCeilDiv totalSize chunkSize) = jsCeilDiv totalSize chunkSize
    exact max_one_jsCeilDiv _ _ ht hc
  · rw [statusHandler, hg]
    dsimp only
    rw [getReceivedChunksArray, hg]
    dsimp only [createdUpload]
    rw [toArray_new]
    rfl
  · rw [getMissingChunks, hg]
    dsimp only [createdUpload]
    have hall : ∀ j ∈ List.range (jsCeilDiv totalSize chunkSize),
        (!(BitSet.new (max 1 (jsCeilDiv totalSize chunkSize))).has j) = true := by
      intro j _
      rw [BitSet.has_new]
      rfl
    rw [List.filter_congr hall, List.filter_true]
  · intro m hmt hmc
    refine ⟨?_, rfl, rfl⟩
    show (BitSet.fromArray m.receivedChunks (max 1 (jsCeilDiv m.totalSize m.chunkSize))).length
        = jsCeilDiv m.totalSize m.chunkSize
    rw [BitSet.length_fromArray]
    exact max_one_jsCeilDiv _ _ hmt hmc

/-- Witness for C4 amended at the spec's numeric example
`totalSize=150, chunkSize=64`: create, status, missing and the descriptor
reconstructed from the initial snapshot all agree on `totalChunks=3`. -/
theorem C4_witness :
    (1 ≤ 150 ∧ jsCeilDiv 150 64 = 3) ∧
    (statusHandler (createUpload emptyState "f.bin" 150 64 "u1" 0 .ok).2 "u1").1
      = .ok 150 64 3 [] 0 ∧
    (loadedUpload (createdMeta "f.bin" 150 64 "u1" 0)).receivedBitset.length = 3 := by
  obtain ⟨up, _, _, _, _, hstatus, _, hload⟩ :=
    C4_totalChunks_agree emptyState "f.bin" 150 64 "u1" 0 (by decide) (by decide)
  refine ⟨⟨by decide, rfl⟩, hstatus, ?_⟩
  exact (hload (createdMeta "f.bin" 150 64 "u1" 0) (by decide) (by decide)).1

/-- C6 is refuted as stated: `createUpload` writes the initial snapshot
before allocating the destination file, so when allocation fails the call
throws and no registry entry exists, yet the snapshot is already on disk
and `getUpload` happily reconstructs the upload from it — the would-be id
is discoverable, not "not found". -/
theorem C6_counterexample :
    (createUpload emptyState "f.bin" 100 10 "u1" 0 .allocateFails).1 = .error "io_error" ∧
    alget (createUpload emptyState "f.bin" 100 10 "u1" 0 .allocateFails).2.uploads "u1" = none ∧
    (getUpload (createUpload emptyState "f.bin" 100 10 "u1" 0 .allocateFails).2 "u1").1 ≠ none := by
  refine ⟨rfl, rfl, ?_⟩
  intro h
  simp [getUpload, alget, alset, createUpload, emptyState] at h

/-- C6 amended: a failing `createUpload` always throws `IOError` and never
creates an in-memory registry entry; if the initial snapshot write fails
the state is fully unchanged and the id stays undiscoverable, but if the
later file allocation fails the already-written snapshot remains on disk
and a lookup of the would-be id reconstructs the upload from it. -/
theorem C6_create_failure_atomicity (st : ManagerState) (filename : String)
    (totalSize chunkSize : Nat) (id : String) (now : Nat)
    (hu : alget st.uploads id = none) (hm : alget st.metaFiles id = none) :
    ((createUpload st filename totalSize chunkSize id now .metaWriteFails).1
        = .error "io_error" ∧
      (createUpload st filename totalSize chunkSize id now .metaWriteFails).2 = st ∧
      (getUpload st id).1 = none) ∧
    ((createUpload st filename totalSize chunkSize id now .allocateFails).1
        = .error "io_error" ∧
      alget (createUpload st filename totalSize chunkSize id now .allocateFails).2.uploads id
        = none ∧
      alget (createUpload st filename totalSize chunkSize id now .allocateFails).2.metaFiles id
        = some (createdMeta filename totalSize chunkSize id now) ∧
      (getUpload (createUpload st filename totalSize chunkSize id now .allocateFails).2 id).1
        ≠ none) := by
  refine ⟨⟨rfl, rfl, ?_⟩, rfl, hu, alget_alset_self _ _ _, ?_⟩
  · rw [getUpload, hu, hm]
  · have hup2 : (createUpload st filename totalSize chunkSize id now .allocateFails).2.uploads = st.uploads := rfl
    have hmeta2 : (createUpload st filename totalSize chunkSize id now .allocateFails).2.metaFiles = alset st.metaFiles id (createdMeta filename totalSize chunkSize id now) := rfl
    rw [getUpload, hup2, hu, hmeta2, alget_alset_self]
    simp

/-- Witness for C6 amended at a concrete create. -/
theorem C6_witness :
    (createUpload emptyState "g.bin" 100 10 "u2" 0 .metaWriteFails).2 = emptyState ∧
    alget (createUpload emptyState "g.bin" 100 10 "u2" 0 .allocateFails).2.metaFiles "u2"
      = some (createdMeta "g.bin" 100 10 "u2" 0) := by
  have h := C6_create_failure_atomicity emptyState "g.bin" 100 10 "u2" 0 rfl rfl
  exact ⟨h.1.2.1, h.2.2.2.1⟩

theorem statusHandler_notFound (st : ManagerState) (id : String)
    (h1 : alget st.uploads id = none) (h2 : alget st.metaFiles id = none) :
    statusHandler st id = (.notFound, st) := by
  rw [statusHandler, getUpload, h1, h2]

/-- C8: `abortUpload` has no error outcome at all (its return type is a
plain state: every unlink failure is swallowed).  For a resolvable id it
always removes the id from the registry, the lock map and the dirty set;
when the snapshot unlink does not hard-fail the snapshot is gone and a
subsequent status query answers not-found, and when the destination unlink
does not hard-fail the destination file is gone.  For an unknown id it is
a no-op that also reports success. -/
theorem C8_abort_cleanup (st : ManagerState) (id : String) (ff fm : Bool) :
    (∀ up, (getUpload st id).1 = some up →
      alget (abortUpload st id ff fm).uploads id = none ∧
      alget (abortUpload st id ff fm).locks id = none ∧
      id ∉ (abortUpload st id ff fm).dirty ∧
      (fm = false →
        alget (abortUpload st id ff fm).metaFiles id = none ∧
        (statusHandler (abortUpload st id ff fm) id).1 = .notFound) ∧
      (ff = false → alget (abortUpload st id ff fm).dataFiles up.filePath = none)) ∧
    ((getUpload st id).1 = none →
      abortUpload st id ff fm = st ∧ (statusHandler st id).1 = .notFound) := by
  refine ⟨?_, ?_⟩
  · intro up hup
    rcases hg : getUpload st id with ⟨o, st1⟩
    rw [hg] at hup
    dsimp only at hup
    subst hup
    cases ff <;> cases fm
    · have hstate : abortUpload st id false false = { st1 with dataFiles := aldel st1.dataFiles up.filePath, metaFiles := aldel st1.metaFiles id, uploads := aldel st1.uploads id, locks := aldel st1.locks id, dirty := st1.dirty.filter (fun j => j != id) } := by
        rw [abortUpload, hg]
        rfl
      rw [hstate]
      refine ⟨aldel_self_none _ _, aldel_self_none _ _, not_mem_filter_ne _ _, ?_, ?_⟩
      · intro _
        refine ⟨aldel_self_none _ _, ?_⟩
        rw [statusHandler_notFound _ _ (aldel_self_none _ _) (aldel_self_none _ _)]
      · intro _
        exact aldel_self_none _ _
    · have hstate : abortUpload st id false true = { st1 with dataFiles := aldel st1.dataFiles up.filePath, uploads := aldel st1.uploads id, locks := aldel st1.locks id, dirty := st1.dirty.filter (fun j => j != id) } := by
        rw [abortUpload, hg]
        rfl
      rw [hstate]
      refine ⟨aldel_self_none _ _, aldel_self_none _ _, not_mem_filter_ne _ _, ?_, ?_⟩
      · intro h
        exact Bool.noConfusion h
      · intro _
        exact aldel_self_none _ _
    · have hstate : abortUpload st id true false = { st1 with metaFiles := aldel st1.metaFiles id, uploads := aldel st1.uploads id, locks := aldel st1.locks id, dirty := st1.dirty.filter (fun j => j != id) } := by
        rw [abortUpload, hg]
        rfl
      rw [hstate]
      refine ⟨aldel_self_none _ _, aldel_self_none _ _, not_mem_filter_ne _ _, ?_, ?_⟩
      · intro _
        refine ⟨aldel_self_none _ _, ?_⟩
        rw [statusHandler_notFound _ _ (aldel_self_none _ _) (aldel_self_none _ _)]
      · intro h
        exact Bool.noConfusion h
    · have hstate : abortUpload st id true true = { st1 with uploads := aldel st1.uploads id, locks := aldel st1.locks id, dirty := st1.dirty.filter (fun j => j != id) } := by
        rw [abortUpload, hg]
        rfl
      rw [hstate]
      refine ⟨aldel_self_none _ _, aldel_self_none _ _, not_mem_filter_ne _ _, ?_, ?_⟩
      · intro h
        exact Bool.noConfusion h
      · intro h
        exact Bool.noConfusion h
  · intro hnone
    have hg := getUpload_none_state st id hnone
    constructor
    · rw [abortUpload, hg]
    · rw [statusHandler, hg]

/-- Witness for C8 at the sample state with fully successful unlinks. -/
theorem C8_witness :
    alget (abortUpload sampleState "u1" false false).uploads "u1" = none ∧
    (statusHandler (abortUpload sampleState "u1" false false) "u1").1 = .notFound ∧
    alget (abortUpload sampleState "u1" false false).dataFiles sampleUpload.filePath = none := by
  have h := (C8_abort_cleanup sampleState "u1" false false).1 sampleUpload rfl
  exact ⟨h.1, (h.2.2.2.1 rfl).2, h.2.2.2.2 rfl⟩

/-- C5: the complete handler fails with exactly the missing-index list
(the complement of the received set below `totalChunks`) whenever that
list is non-empty, and otherwise reports success, marks the descriptor
completed (leaving the bitmap untouched) and schedules a flush. -/
theorem C5_complete_gate (st : ManagerState) (id : String) (up : Upload)
    (hup : (getUpload st id).1 = some up) :
    ((getMissingChunks (getUpload st id).2 id).1 ≠ [] →
      completeHandler st id
        = (.missingChunks (getMissingChunks (getUpload st id).2 id).1, (getUpload st id).2)) ∧
    ((getMissingChunks (getUpload st id).2 id).1 = [] →
      (completeHandler st id).1 = .ok ∧
      (∃ up2, alget (completeHandler st id).2.uploads id = some up2 ∧
        up2.completed = true ∧ up2.receivedBitset = up.receivedBitset) ∧
      id ∈ (completeHandler st id).2.dirty ∧
      (completeHandler st id).2.timerArmed = true) := by
  rcases hg : getUpload st id with ⟨o, st1⟩
  rw [hg] at hup
  dsimp only at hup
  subst hup
  have hcache : alget st1.uploads id = some up := by
    have h := getUpload_caches st id up (by rw [hg])
    rw [hg] at h
    exact h
  have hg1 : getUpload st1 id = (some up, st1) := getUpload_of_cached st1 id up hcache
  have hmiss : getMissingChunks st1 id
      = ((List.range (jsCeilDiv up.totalSize up.chunkSize)).filter
          (fun i => !up.receivedBitset.has i), st1) := by
    rw [getMissingChunks, hg1]
  have hch : completeHandler st id
      = (if ((List.range (jsCeilDiv up.totalSize up.chunkSize)).filter
            (fun i => !up.receivedBitset.has i)).isEmpty
         then ((.ok : CompleteResult), (markCompleted st1 id).2)
         else (.missingChunks ((List.range (jsCeilDiv up.totalSize up.chunkSize)).filter
            (fun i => !up.receivedBitset.has i)), st1)) := by
    rw [completeHandler, hg]
    dsimp only
    rw [hmiss]
  dsimp only
  constructor
  · intro hne
    rw [hmiss] at hne
    dsimp only at hne
    have hemp : ((List.range (jsCeilDiv up.totalSize up.chunkSize)).filter
        (fun i => !up.receivedBitset.has i)).isEmpty = false := by
      cases he : List.isEmpty ((List.range (jsCeilDiv up.totalSize up.chunkSize)).filter (fun i => !up.receivedBitset.has i))
      · rfl
      · exact absurd (List.isEmpty_iff.mp he) hne
    rw [hch, hemp, hmiss]
    rfl
  · intro hempty
    rw [hmiss] at hempty
    dsimp only at hempty
    have hemp : ((List.range (jsCeilDiv up.totalSize up.chunkSize)).filter
        (fun i => !up.receivedBitset.has i)).isEmpty = true := by
      rw [hempty]
      rfl
    rw [hch, hemp]
    have hmark : (markCompleted st1 id).2
        = scheduleFlush { st1 with uploads := alset st1.uploads id { up with completed := true } } id := by
      rw [markCompleted, hg1]
    rw [if_pos rfl]
    refine ⟨rfl, ⟨{ up with completed := true }, ?_, rfl, rfl⟩, ?_, ?_⟩
    · rw [hmark, scheduleFlush_uploads]
      exact alget_alset_self _ _ _
    · rw [hmark]
      exact mem_scheduleFlush_dirty _ _
    · rw [hmark]
      exact scheduleFlush_timerArmed _ _

/-- Bitset for the completion-gate witness: ten chunks, only 0,1,2,5
received. -/
def gateBitSet : BitSet := ((((BitSet.new 10).set 0).set 1).set 2).set 5

/-- Upload with `totalChunks = 10` for the completion-gate witness. -/
def gateUpload : Upload :=
  { id := "g1", filename := "g.bin", totalSize := 100, chunkSize := 10,
    createdAt := 0, filePath := "g.bin.g1", completed := false,
    receivedBitset := gateBitSet }

/-- Manager state for the completion-gate witness. -/
def gateState : ManagerState :=
  { uploads := [("g1", gateUpload)], locks := [("g1", [])], dirty := [],
    timerArmed := false, metaFiles := [("g1", metaOf gateUpload)],
    dataFiles := [("g.bin.g1", [])] }

/-- Witness for C5: the spec's completion-gate example — with chunks
0,1,2,5 of ten received, complete fails carrying missing 3,4,6,7,8,9. -/
theorem C5_witness :
    completeHandler gateState "g1" = (.missingChunks [3, 4, 6, 7, 8, 9], gateState) := by
  have h := (C5_complete_gate gateState "g1" gateUpload rfl).1 (by decide)
  rw [h]
  decide

/-- C2: after the in-memory cache is cleared, an id whose snapshot record
was persisted by a flush is reconstructed purely from the snapshot — the
descriptor fields and the bitmap match the record, and the status handler
reports exactly the persisted `receivedChunks`; an id with neither a
cached descriptor nor a snapshot yields not-found. -/
theorem C2_cold_start_recovery (st : ManagerState) (id : String) :
    (∀ m b, alget st.uploads id = none → alget st.metaFiles id = some m →
      m.receivedChunks = BitSet.toArray b →
      b.length = max 1 (jsCeilDiv m.totalSize m.chunkSize) →
      ∃ up, (getUpload st id).1 = some up ∧
        up.id = m.id ∧ up.filename = m.filename ∧ up.totalSize = m.totalSize ∧
        up.chunkSize = m.chunkSize ∧ up.createdAt = m.createdAt ∧
        up.filePath = m.filePath ∧ up.completed = m.completed ∧
        up.receivedBitset.toArray = m.receivedChunks ∧
        (statusHandler st id).1 = .ok m.totalSize m.chunkSize
          (jsCeilDiv m.totalSize m.chunkSize) m.receivedChunks m.receivedChunks.length) ∧
    (alget st.uploads id = none → alget st.metaFiles id = none →
      (getUpload st id).1 = none ∧ (statusHandler st id).1 = .notFound) := by
  constructor
  · intro m b hnc hm harr hlen
    have hround : (loadedUpload m).receivedBitset.toArray = m.receivedChunks := by
      show (BitSet.fromArray m.receivedChunks (max 1 (jsCeilDiv m.totalSize m.chunkSize))).toArray = m.receivedChunks
      rw [harr, BitSet.toArray_fromArray_toArray b _ hlen]
    have hfst : (getUpload st id).1 = some (loadedUpload m) := by
      rw [getUpload, hnc, hm]
    rcases hgp : getUpload st id with ⟨o, st1⟩
    rw [hgp] at hfst
    dsimp only at hfst
    subst hfst
    have hcache : alget st1.uploads id = some (loadedUpload m) := by
      have h := getUpload_caches st id (loadedUpload m) (by rw [hgp])
      rw [hgp] at h
      exact h
    have hg1 : getUpload st1 id = (some (loadedUpload m), st1) :=
      getUpload_of_cached st1 id (loadedUpload m) hcache
    refine ⟨loadedUpload m, rfl, rfl, rfl, rfl, rfl, rfl, rfl, rfl, hround, ?_⟩
    rw [statusHandler, hgp]
    dsimp only
    rw [getReceivedChunksArray, hg1]
    dsimp only
    rw [hround]
    rfl
  · intro hnc hm
    have hg : getUpload st id = (none, st) := by
      rw [getUpload, hnc, hm]
    rw [statusHandler, hg]
    exact ⟨rfl, rfl⟩

/-- Snapshot record for the cold-start witness: chunks 0 and 2 of 3
persisted. -/
def coldMeta : Meta :=
  { id := "u1", filename := "f.bin", totalSize := 150, chunkSize := 64,
    createdAt := 0, receivedChunks := [0, 2], filePath := "f.bin.u1",
    completed := false }

/-- State after a simulated restart: empty cache, snapshot on disk. -/
def coldState : ManagerState :=
  { uploads := [], locks := [], dirty := [], timerArmed := false,
    metaFiles := [("u1", coldMeta)], dataFiles := [("f.bin.u1", [])] }

/-- Witness for C2: reloading `u1` from the snapshot reports exactly the
persisted receivedChunks `[0, 2]`. -/
theorem C2_witness :
    (statusHandler coldState "u1").1 = .ok 150 64 3 [0, 2] 2 := by
  obtain ⟨up, _, _, _, _, _, _, _, _, _, hstatus⟩ :=
    (C2_cold_start_recovery coldState "u1").1 coldMeta (((BitSet.new 3).set 0).set 2)
      rfl rfl (by decide) (by decide)
  exact hstatus

theorem has_mono_set (b : BitSet) (i j : Nat) (hj : b.has j = true) :
    (b.set i).has j = true := by
  rw [BitSet.has_set, hj]
  rfl

theorem alget_statusHandler_uploads (st : ManagerState) (id id' : String) (u : Upload)
    (h : alget st.uploads id' = some u) :
    alget (statusHandler st id).2.uploads id' = some u := by
  rw [statusHandler]
  rcases hg : getUpload st id with ⟨o, st1⟩
  have h1 : alget st1.uploads id' = some u := by
    have h0 := alget_getUpload_uploads st id id' u h
    rw [hg] at h0
    exact h0
  cases o with
  | none => exact h1
  | some up =>
    dsimp only
    rw [getReceivedChunksArray]
    rcases hg2 : getUpload st1 id with ⟨o2, st2⟩
    have h2 : alget st2.uploads id' = some u := by
      have h0 := alget_getUpload_uploads st1 id id' u h1
      rw [hg2] at h0
      exact h0
    cases o2 with
    | none => exact h2
    | some up2 => exact h2

theorem alget_getMissingChunks_uploads (st : ManagerState) (id id' : String) (u : Upload)
    (h : alget st.uploads id' = some u) :
    alget (getMissingChunks st id).2.uploads id' = some u := by
  rw [getMissingChunks]
  rcases hg : getUpload st id with ⟨o, st1⟩
  have h1 : alget st1.uploads id' = some u := by
    have h0 := alget_getUpload_uploads st id id' u h
    rw [hg] at h0
    exact h0
  cases o with
  | none => exact h1
  | some up => exact h1

theorem alget_getReceivedChunksArray_uploads (st : ManagerState) (id id' : String)
    (u : Upload) (h : alget st.uploads id' = some u) :
    alget (getReceivedChunksArray st id).2.uploads id' = some u := by
  rw [getReceivedChunksArray]
  rcases hg : getUpload st id with ⟨o, st1⟩
  have h1 : alget st1.uploads id' = some u := by
    have h0 := alget_getUpload_uploads st id id' u h
    rw [hg] at h0
    exact h0
  cases o with
  | none => exact h1
  | some up => exact h1

theorem alget_markCompleted_uploads (st : ManagerState) (id id' : String) (u : Upload)
    (h : alget st.uploads id' = some u) :
    ∃ u', alget (markCompleted st id).2.uploads id' = some u' ∧
      u'.receivedBitset = u.receivedBitset := by
  rw [markCompleted]
  rcases hg : getUpload st id with ⟨o, st1⟩
  have h1 : alget st1.uploads id' = some u := by
    have h0 := alget_getUpload_uploads st id id' u h
    rw [hg] at h0
    exact h0
  cases o with
  | none => exact ⟨u, h1, rfl⟩
  | some up =>
    dsimp only
    rw [scheduleFlush_uploads]
    by_cases hid : id = id'
    · subst hid
      have hcached : getUpload st id = (some u, st) := getUpload_of_cached st id u h
      rw [hcached] at hg
      injection hg with ho hst
      injection ho with hup
      subst hup
      subst hst
      rw [alget_alset_self]
      exact ⟨{ u with completed := true }, rfl, rfl⟩
    · rw [alget_alset_ne _ _ _ _ hid]
      exact ⟨u, h1, rfl⟩

theorem alget_writeChunkAt_uploads (st : ManagerState) (id : String) (offset : Nat)
    (oc : WriteOutcome) (id' : String) (u : Upload)
    (h : alget st.uploads id' = some u) :
    ∃ u', alget (writeChunkAt st id offset oc).2.uploads id' = some u' ∧
      (∀ j, u.receivedBitset.has j = true → u'.receivedBitset.has j = true) := by
  rw [writeChunkAt]
  rcases hg : getUpload st id with ⟨o, st1⟩
  have h1 : alget st1.uploads id' = some u := by
    have h0 := alget_getUpload_uploads st id id' u h
    rw [hg] at h0
    exact h0
  cases o with
  | none => exact ⟨u, h1, fun j hj => hj⟩
  | some up =>
    dsimp only
    by_cases hrecv : up.receivedBitset.has (offset / up.chunkSize) = true
    · rw [if_pos hrecv]
      exact ⟨u, h1, fun j hj => hj⟩
    · rw [if_neg hrecv]
      by_cases hlock : ((alget st1.locks id).getD []).contains (offset / up.chunkSize) = true
      · rw [if_pos hlock]
        exact ⟨u, h1, fun j hj => hj⟩
      · rw [if_neg hlock]
        cases oc with
        | streamError code =>
          dsimp only
          by_cases ht : isTransientCode code = true
          · rw [if_pos ht]
            exact ⟨u, h1, fun j hj => hj⟩
          · rw [if_neg ht]
            exact ⟨u, h1, fun j hj => hj⟩
        | success written =>
          dsimp only
          rw [lockRelease_uploads, scheduleFlush_uploads]
          by_cases hid : id = id'
          · subst hid
            have hcached : getUpload st id = (some u, st) := getUpload_of_cached st id u h
            rw [hcached] at hg
            injection hg with ho hst
            injection ho with hup
            subst hup
            subst hst
            rw [alget_alset_self]
            refine ⟨{ u with receivedBitset := u.receivedBitset.set (offset / u.chunkSize) }, rfl, ?_⟩
            intro j hj
            exact has_mono_set _ _ _ hj
          · rw [alget_alset_ne _ _ _ _ hid]
            exact ⟨u, h1, fun j hj => hj⟩

theorem alget_completeHandler_uploads (st : ManagerState) (id id' : String) (u : Upload)
    (h : alget st.uploads id' = some u) :
    ∃ u', alget (completeHandler st id).2.uploads id' = some u' ∧
      u'.receivedBitset = u.receivedBitset := by
  rw [completeHandler]
  rcases hg : getUpload st id with ⟨o, st1⟩
  have h1 : alget st1.uploads id' = some u := by
    have h0 := alget_getUpload_uploads st id id' u h
    rw [hg] at h0
    exact h0
  cases o with
  | none => exact ⟨u, h1, rfl⟩
  | some up =>
    dsimp only
    rcases hg2 : getMissingChunks st1 id with ⟨missing, st2⟩
    have h2 : alget st2.uploads id' = some u := by
      have h0 := alget_getMissingChunks_uploads st1 id id' u h1
      rw [hg2] at h0
      exact h0
    by_cases he : missing.isEmpty = true
    · rw [if_pos he]
      exact alget_markCompleted_uploads st2 id id' u h2
    · rw [if_neg he]
      exact ⟨u, h2, rfl⟩

theorem alget_flushDirty_uploads (st : ManagerState) (id' : String) (u : Upload)
    (h : alget st.uploads id' = some u) :
    alget (flushDirty st).uploads id' = some u := by
  rw [flushDirty_uploads]
  exact h

/-- C10: under every manager operation except abort — create of a fresh
id, chunk write with any outcome, status, missing-chunk query, received
query, complete, lazy load, flush — a registered upload's received set
never loses an index: any bit set before the operation is still set in
that upload's bitmap afterwards. -/
theorem C10_received_monotone (st : ManagerState) (op : Op) (hf : opFresh st op)
    (id' : String) (u u' : Upload) (j : Nat)
    (hu : alget st.uploads id' = some u)
    (hu' : alget (applyOp st op).uploads id' = some u')
    (hj : u.receivedBitset.has j = true) :
    u'.receivedBitset.has j = true := by
  cases op with
  | create f t c id now oc =>
    obtain ⟨hfid, _⟩ := hf
    have hne : id ≠ id' := by
      intro he
      rw [he, hu] at hfid
      exact Option.noConfusion hfid
    cases oc with
    | metaWriteFails =>
      rw [show applyOp st (.create f t c id now .metaWriteFails) = st from rfl] at hu'
      rw [hu] at hu'
      injection hu' with he
      rw [← he]
      exact hj
    | allocateFails =>
      have hsame : (applyOp st (.create f t c id now .allocateFails)).uploads = st.uploads := rfl
      rw [hsame, hu] at hu'
      injection hu' with he
      rw [← he]
      exact hj
    | ok =>
      have hsame : (applyOp st (.create f t c id now .ok)).uploads
          = alset st.uploads id (createdUpload f t c id now) := by
        show (scheduleFlush _ id).uploads = _
        rw [scheduleFlush_uploads]
      rw [hsame, alget_alset_ne _ _ _ _ hne, hu] at hu'
      injection hu' with he
      rw [← he]
      exact hj
  | write id offset oc =>
    obtain ⟨u2, hu2, hmono⟩ := alget_writeChunkAt_uploads st id offset oc id' u hu
    rw [show applyOp st (.write id offset oc) = (writeChunkAt st id offset oc).2 from rfl, hu2] at hu'
    injection hu' with he
    rw [← he]
    exact hmono j hj
  | status id =>
    have h2 := alget_statusHandler_uploads st id id' u hu
    rw [show applyOp st (.status id) = (statusHandler st id).2 from rfl, h2] at hu'
    injection hu' with he
    rw [← he]
    exact hj
  | missing id =>
    have h2 := alget_getMissingChunks_uploads st id id' u hu
    rw [show applyOp st (.missing id) = (getMissingChunks st id).2 from rfl, h2] at hu'
    injection hu' with he
    rw [← he]
    exact hj
  | received id =>
    have h2 := alget_getReceivedChunksArray_uploads st id id' u hu
    rw [show applyOp st (.received id) = (getReceivedChunksArray st id).2 from rfl, h2] at hu'
    injection hu' with he
    rw [← he]
    exact hj
  | complete id =>
    obtain ⟨u2, hu2, hbits⟩ := alget_completeHandler_uploads st id id' u hu
    rw [show applyOp st (.complete id) = (completeHandler st id).2 from rfl, hu2] at hu'
    injection hu' with he
    rw [← he, hbits]
    exact hj
  | load id =>
    have h2 := alget_getUpload_uploads st id id' u hu
    rw [show applyOp st (.load id) = (getUpload st id).2 from rfl, h2] at hu'
    injection hu' with he
    rw [← he]
    exact hj
  | flush =>
    have h2 := alget_flushDirty_uploads st id' u hu
    rw [show applyOp st .flush = flushDirty st from rfl, h2] at hu'
    injection hu' with he
    rw [← he]
    exact hj

/-- Witness for C10: a complete attempt on the sample state (which must
fail the gate) leaves chunk 2 received. -/
theorem C10_witness : sampleUpload.receivedBitset.has 2 = true :=
  C10_received_monotone sampleState (.complete "u1") trivial "u1" sampleUpload sampleUpload 2
    rfl (by decide) (by decide)
